/-
Verification of the foodgram backend's user-facing contracts against a
shallow embedding of the Python source (backend/foodgram).

The relational store is modelled as explicit lists of rows (`Db`);
Django ORM calls are translated operation by operation:
  * `get_or_create`  -> membership test + append,
  * `filter(...).delete()` -> `List.filter` with the negated predicate,
  * `@transaction.atomic`  -> `atomic`, which discards the tentative state
    when the body raises (returns `none`),
  * the shopping-list aggregate query
    (`Ingredient.objects.filter(recipeingredients__recipe__carts__user=user)
      .values('name', measurement=F('measure_unit'))
      .annotate(amount=Coalesce(Sum('recipeingredients__amount'), 0))
      .order_by('name').distinct()`)
    -> `aggregate`: the SQL join multiset (`joinRows`), grouped by the
    selected `(name, measure_unit)` pair, summed, and sorted by name in
    codepoint order (`lexLe`).
Python strings are `String`; `str.lower` is modelled by `Char.toLower`
per character (the ASCII case mapping, which is what the relevant
branches compare against); HTTP status codes are `Nat`.
-/
import Mathlib

deriving instance DecidableEq for Except

/-! ## users/validators.py -/

/-- Embedding of `validate_username` (users/validators.py lines 4-19):
the source rejects exactly the literal string "I" and the literal "me". -/
def validate_username (value : String) : Except String String :=
  if value = "I" then Except.error "Имя пользователя должно быть длиннее 1 символа."
  else if value = "me" then Except.error "Выберите другое имя пользователя."
  else Except.ok value

/-- Python's `str.lower`, modelled character-wise by the ASCII case map
`Char.toLower` (identity outside the basic latin letters). -/
def strLower (value : String) : String :=
  String.mk (value.data.map Char.toLower)

/-- Python's `str.isalpha`: non-empty and every character alphabetic. -/
def pyIsAlpha (value : String) : Bool :=
  !value.data.isEmpty && value.data.all Char.isAlpha

/-- Embedding of `validate_names` (users/validators.py lines 22-41).
The profanity branch compares `value.lower()` against the mixed-case
literal "Shit", exactly as the source does. -/
def validate_names (value : String) : Except String String :=
  if strLower value = "me" then Except.error "Напишите своё реальное имя."
  else if strLower value = "Shit" then Except.error "Не ругайтесь. Напишите своё реальное имя."
  else if !pyIsAlpha value then Except.error "Имя пользователя должно состоять только из букв."
  else Except.ok value

/-- Observer: did `validate_names` answer with the profanity rejection? -/
def isProfanityReject : Except String String → Bool
  | Except.error m => decide (m = "Не ругайтесь. Напишите своё реальное имя.")
  | Except.ok _ => false

/-! ## Data model (recipes/models.py, users/models.py) -/

/-- `Ingredient` row: `name` is not unique; identity is the primary key. -/
structure IngredientRow where
  id : Nat
  name : String
  measureUnit : String
deriving DecidableEq

/-- `Recipe` row (author FK, name, text, cooking_time; image omitted as an
opaque upload handled by the storage collaborator). -/
structure RecipeRow where
  id : Nat
  authorId : Nat
  name : String
  text : String
  cookingTime : Int
deriving DecidableEq

/-- `RecipeIngredient` join row. -/
structure RecipeIngredientRow where
  recipeId : Nat
  ingredientId : Nat
  amount : Int
deriving DecidableEq

/-- Row of the implicit recipe-tag join table. -/
structure RecipeTagRow where
  recipeId : Nat
  tagId : Nat
deriving DecidableEq

/-- `(user, recipe)` pair, the shape shared by `Favorite` and `ShoppingCart`. -/
structure UserRecipePair where
  userId : Nat
  recipeId : Nat
deriving DecidableEq

/-- `Subscription` row: `user` follows `author`. -/
structure SubscriptionRow where
  userId : Nat
  authorId : Nat
deriving DecidableEq

/-- The relational store as explicit tables. -/
structure Db where
  ingredients : List IngredientRow
  recipes : List RecipeRow
  recipeIngredients : List RecipeIngredientRow
  recipeTags : List RecipeTagRow
  favorites : List UserRecipePair
  carts : List UserRecipePair
  subscriptions : List SubscriptionRow
deriving DecidableEq

def emptyDb : Db := ⟨[], [], [], [], [], [], []⟩

/-- `Model.objects.filter(user=.., recipe=..).exists()`. -/
def hasPair (rows : List UserRecipePair) (uid rid : Nat) : Bool :=
  rows.any (fun p => decide (p.userId = uid ∧ p.recipeId = rid))

/-! ## api/views.py: favorite / shopping_cart / subscribe actions -/

/-- POST branch of `RecipeViewSet.favorite` (views.py lines 344-352):
`Favorite.objects.get_or_create`; 200 when created, 400 when it existed. -/
def favorite_post (db : Db) (uid rid : Nat) : Db × Nat :=
  if hasPair db.favorites uid rid then (db, 400)
  else ({ db with favorites := db.favorites ++ [⟨uid, rid⟩] }, 200)

/-- DELETE branch of `RecipeViewSet.favorite` (views.py lines 353-361):
`Favorite.objects.get(...)` then `.delete()` and 200; `DoesNotExist` is
answered with 204. -/
def favorite_delete (db : Db) (uid rid : Nat) : Db × Nat :=
  if hasPair db.favorites uid rid then
    ({ db with favorites :=
        (db.favorites.filter (fun p => !(decide (p.userId = uid ∧ p.recipeId = rid)))) }, 200)
  else (db, 204)

/-- POST branch of `RecipeViewSet.shopping_cart` (views.py lines 390-392):
`ShoppingCart.objects.get_or_create` and an unconditional 200. -/
def shopping_cart_post (db : Db) (uid rid : Nat) : Db × Nat :=
  if hasPair db.carts uid rid then (db, 200)
  else ({ db with carts := db.carts ++ [⟨uid, rid⟩] }, 200)

/-- DELETE branch of `RecipeViewSet.shopping_cart` (views.py lines 394-396):
`filter(...).delete()` and an unconditional 204. -/
def shopping_cart_delete (db : Db) (uid rid : Nat) : Db × Nat :=
  ({ db with carts :=
      (db.carts.filter (fun p => !(decide (p.userId = uid ∧ p.recipeId = rid)))) }, 204)

/-- Helper `delete_model_instance` (api/utils.py lines 68-78), generic over
the favorite and cart tables: 400 with an error message when the pair is
absent, delete + 204 when present.  (No view in api/views.py calls it.) -/
def delete_model_instance (rows : List UserRecipePair) (uid rid : Nat) :
    List UserRecipePair × Nat :=
  if hasPair rows uid rid then
    (rows.filter (fun p => !(decide (p.userId = uid ∧ p.recipeId = rid))), 204)
  else (rows, 400)

/-- POST branch of `UserViewSet.subscribe` (views.py lines 110-118):
`author != user` guards `author.following.get_or_create(user=user)` / 200;
the self case answers 400. -/
def subscribe_post (db : Db) (uid authorId : Nat) : Db × Nat :=
  if authorId ≠ uid then
    (if db.subscriptions.any (fun s => decide (s.userId = uid ∧ s.authorId = authorId)) then db
     else { db with subscriptions := db.subscriptions ++ [⟨uid, authorId⟩] }, 200)
  else (db, 400)

/-- `UserSubscribeSerializer.validate` (api/serializers.py lines 129-138):
raises when the requesting user equals the target author. -/
def subscribe_validate (requestUserId authorId : Nat) : Except String Nat :=
  if requestUserId = authorId then Except.error "Нельзя подписаться на самого себя!"
  else Except.ok authorId

/-! ## api/serializers.py + api/utils.py: recipe create/update -/

/-- One entry of the submitted `ingredients` list of `RecipeCreateSerializer`
(`IngredientPostSerializer`): an ingredient id and an amount. -/
structure IngredientSpec where
  id : Nat
  amount : Int
deriving DecidableEq

/-- `RecipeCreateSerializer.validate` (serializers.py lines 280-295): the
loop raises on the first amount `<= 0`; only after the whole loop does
`len(set(ids)) != len(ids)` raise the duplicate error. -/
def recipe_serializer_validate (specs : List IngredientSpec) :
    Except String (List IngredientSpec) :=
  if specs.any (fun s => decide (s.amount ≤ 0)) then
    Except.error "Количество не может быть меньше 1"
  else if ((specs.map (fun s => s.id)).dedup).length ≠ (specs.map (fun s => s.id)).length then
    Except.error "Вы пытаетесь добавить в рецепт два одинаковых ингредиента"
  else Except.ok specs

/-- The loop of `create_ingredients` (utils.py lines 40-51): each spec is
resolved through `get_object_or_404(Ingredient, id=..)` (an unknown id
raises, yielding `none`) and becomes one `RecipeIngredient` row. -/
def resolveSpecs (db : Db) (rid : Nat) : List IngredientSpec → Option (List RecipeIngredientRow)
  | [] => some []
  | s :: rest =>
    match db.ingredients.find? (fun i => decide (i.id = s.id)) with
    | none => none
    | some i =>
      match resolveSpecs db rid rest with
      | none => none
      | some rows => some (⟨rid, i.id, s.amount⟩ :: rows)

/-- `create_ingredients` (api/utils.py lines 37-52): resolve all specs, then
`bulk_create` the rows. -/
def create_ingredients (db : Db) (specs : List IngredientSpec) (rid : Nat) : Option Db :=
  match resolveSpecs db rid specs with
  | none => none
  | some rows => some { db with recipeIngredients := db.recipeIngredients ++ rows }

/-- The data of one `create`/`update` call: the recipe row fields plus the
submitted tag ids and ingredient specs. -/
structure RecipeInput where
  rid : Nat
  authorId : Nat
  name : String
  text : String
  cookingTime : Int
  tagIds : List Nat
  specs : List IngredientSpec
deriving DecidableEq

/-- `@transaction.atomic`: run the body on the current state; an exception
(`none`) rolls the whole transaction back, leaving the state untouched.
The `Bool` reports whether the transaction committed. -/
def atomic (db : Db) (body : Db → Option Db) : Db × Bool :=
  match body db with
  | some result => (result, true)
  | none => (db, false)

/-- `RecipeCreateSerializer.create` (serializers.py lines 297-308), with a
failure injectable after `recipe.tags.set(tags)` and before
`create_ingredients`, mirroring the spec's fault-injection test. -/
def recipe_create (db : Db) (inp : RecipeInput) (failAfterTags : Bool) : Db × Bool :=
  atomic db (fun db0 =>
    let db1 : Db := { db0 with recipes :=
      (db0.recipes ++ [⟨inp.rid, inp.authorId, inp.name, inp.text, inp.cookingTime⟩]) }
    let db2 : Db := { db1 with recipeTags :=
      (db1.recipeTags ++ inp.tagIds.map (fun t => ⟨inp.rid, t⟩)) }
    if failAfterTags then none
    else create_ingredients db2 inp.specs inp.rid)

/-- `RecipeCreateSerializer.update` (serializers.py lines 310-324):
`tags.clear()` + `tags.set(tags)`, delete the old `RecipeIngredient` rows,
write the new field values, then `create_ingredients`; same injectable
failure point before the ingredient rows are written. -/
def recipe_update (db : Db) (inp : RecipeInput) (failAfterTags : Bool) : Db × Bool :=
  atomic db (fun db0 =>
    let db1 : Db := { db0 with recipeTags :=
      ((db0.recipeTags.filter (fun t => !(decide (t.recipeId = inp.rid))))
        ++ inp.tagIds.map (fun t => ⟨inp.rid, t⟩)) }
    let db2 : Db := { db1 with recipeIngredients :=
      (db1.recipeIngredients.filter (fun ri => !(decide (ri.recipeId = inp.rid)))) }
    let db3 : Db := { db2 with recipes :=
      (db2.recipes.map (fun r =>
        if r.id = inp.rid then
          { r with name := inp.name, text := inp.text, cookingTime := inp.cookingTime }
        else r)) }
    if failAfterTags then none
    else create_ingredients db3 inp.specs inp.rid)

/-! ## api/views.py: download_shopping_cart aggregation -/

/-- Codepoint-wise lexicographic order on character lists: the
locale-independent `ORDER BY name` of the aggregate query. -/
def lexLe : List Char → List Char → Bool
  | [], _ => true
  | _ :: _, [] => false
  | a :: as, b :: bs => if a = b then lexLe as bs else decide (a < b)

/-- One output line `(name, measure_unit, summed amount)` of the query. -/
abbrev ShoppingLine := String × String × Int

/-- A `(name, measure_unit)` grouping key. -/
abbrev ShoppingKey := String × String

/-- The grouping key of a line: the `.values('name', measurement=..)` pair. -/
def shoppingKey (l : ShoppingLine) : ShoppingKey := (l.1, l.2.1)

/-- The row multiset of the SQL join
`ingredient JOIN recipeingredient JOIN recipe JOIN shoppingcart
 WHERE shoppingcart.user = uid`
produced by `.filter(recipeingredients__recipe__carts__user=user)`;
`Sum('recipeingredients__amount')` ranges over exactly these rows because
the `annotate` reuses the join introduced by the preceding `filter`. -/
def joinRows (db : Db) (uid : Nat) : List ShoppingLine :=
  db.ingredients.flatMap (fun i =>
    (db.recipeIngredients.filter (fun ri => decide (ri.ingredientId = i.id))).flatMap (fun ri =>
      (db.carts.filter (fun c => decide (c.userId = uid ∧ c.recipeId = ri.recipeId))).map (fun _ =>
        (i.name, i.measureUnit, ri.amount))))

/-- `SUM(amount)` of the join rows falling into group `k`. -/
def sumFor (rows : List ShoppingLine) (k : ShoppingKey) : Int :=
  ((rows.filter (fun r => decide (shoppingKey r = k))).map (fun r => r.2.2)).sum

/-- Ordering of output lines by ingredient name. -/
def lineLe (a b : ShoppingLine) : Prop := lexLe a.1.data b.1.data = true

instance : DecidableRel lineLe :=
  fun a b => inferInstanceAs (Decidable (lexLe a.1.data b.1.data = true))

/-- The result set of the aggregate queryset: one line per distinct
`(name, measure_unit)` group of the join, carrying the group's summed
amount, ordered by name (`GROUP BY name, measure_unit ... ORDER BY name`). -/
def aggregate (db : Db) (uid : Nat) : List ShoppingLine :=
  List.insertionSort lineLe
    (((joinRows db uid).map shoppingKey).dedup.map
      (fun k => (k.1, k.2, sumFor (joinRows db uid) k)))

/-- `ShoppingCart.objects.filter(user=uid, recipe=rid).exists()`: is the
recipe in the user's cart? -/
def inCart (db : Db) (uid rid : Nat) : Bool :=
  db.carts.any (fun c => decide (c.userId = uid ∧ c.recipeId = rid))

/-- Resolve an ingredient id to its `(name, measure_unit)` pair, as the FK
join does (first matching row; ids are unique in a real table). -/
def resolveKeyL (l : List IngredientRow) (iid : Nat) : Option ShoppingKey :=
  (l.find? (fun i => decide (i.id = iid))).map (fun i => (i.name, i.measureUnit))

/-- The `RecipeIngredient` rows contributing to output group `k`: rows whose
recipe is in the user's cart and whose ingredient carries key `k`. -/
def contributing (db : Db) (uid : Nat) (k : ShoppingKey) : List RecipeIngredientRow :=
  db.recipeIngredients.filter (fun ri =>
    decide (inCart db uid ri.recipeId = true ∧ resolveKeyL db.ingredients ri.ingredientId = some k))

/-- Total amount contributed to group `k`. -/
def contributingSum (db : Db) (uid : Nat) (k : ShoppingKey) : Int :=
  ((contributing db uid k).map (fun ri => ri.amount)).sum

/-- The amount contributed through one specific `Ingredient` row `i`. -/
def contribOf (db : Db) (uid : Nat) (i : IngredientRow) : Int :=
  ((db.recipeIngredients.filter (fun ri =>
      decide (ri.ingredientId = i.id ∧ inCart db uid ri.recipeId = true))).map
    (fun ri => ri.amount)).sum

/-- One CSV data row `[name, amount, measurement]` (views.py line 446). -/
def renderLine (l : ShoppingLine) : List String := [l.1, toString l.2.2, l.2.1]

/-- The header block of the CSV (views.py lines 431-434); `now` is the
rendered `dt.now()` timestamp. -/
def docHeader (firstName now : String) : List (List String) :=
  [["Список покупок для:", "", firstName],
   ["Дата:", "", now],
   [],
   ["Наименование", "Количество", "Единицы измерения"]]

/-- The trailing CSV row (views.py line 448). -/
def docFooter : List String := ["", "", "Сделано в Foodgram"]

/-- The full list of CSV rows written by `download_shopping_cart`. -/
def shopping_list_rows (db : Db) (uid : Nat) (firstName now : String) : List (List String) :=
  docHeader firstName now ++ (aggregate db uid).map renderLine ++ [docFooter]

/-- `RecipeViewSet.download_shopping_cart` (views.py lines 425-457): 400
when the user's cart is empty, otherwise the CSV rows. -/
def download_shopping_cart (db : Db) (uid : Nat) (firstName now : String) :
    Except Nat (List (List String)) :=
  if db.carts.any (fun c => decide (c.userId = uid)) = false then Except.error 400
  else Except.ok (shopping_list_rows db uid firstName now)

/-! ## Helper lemmas -/

/-- No character lowercases to the capital letter S: the ASCII branch lands
in the span of the small letters, and the identity branch would need the
input to be 'S' itself, which the branch guard excludes. -/
theorem toLower_ne_S (c : Char) : Char.toLower c ≠ 'S' := by
  intro h
  simp only [Char.toLower] at h
  split_ifs at h with hc
  · have hv : Nat.isValidChar (c.toNat + 32) := Or.inl (by omega)
    have ht : (Char.ofNat (c.toNat + 32)).toNat = c.toNat + 32 := by
      rw [Char.ofNat, dif_pos hv]; rfl
    have h83 : (83 : Nat) = c.toNat + 32 := by rw [← ht, h]; rfl
    omega
  · subst h
    exact hc (by decide)

/-- The lowercased form of a string never equals the mixed-case "Shit". -/
theorem strLower_ne_Shit (v : String) : strLower v ≠ "Shit" := by
  intro h
  have hd : v.data.map Char.toLower = "Shit".data := by
    have h2 := congrArg String.data h
    simpa [strLower] using h2
  have hS : "Shit".data = 'S' :: ['h', 'i', 't'] := by decide
  rw [hS] at hd
  cases hv : v.data with
  | nil => rw [hv] at hd; simp at hd
  | cons c cs =>
    rw [hv] at hd
    simp only [List.map_cons, List.cons.injEq] at hd
    exact toLower_ne_S c hd.1

/-- After filtering the pair out, the membership test fails. -/
theorem hasPair_filter_self (rows : List UserRecipePair) (uid rid : Nat) :
    hasPair (rows.filter (fun p => !(decide (p.userId = uid ∧ p.recipeId = rid)))) uid rid
      = false := by
  rw [hasPair, List.any_eq_false]
  intro p hp
  have hmem := List.mem_filter.mp hp
  have h2 := hmem.2
  simp only [Bool.not_eq_true', decide_eq_false_iff_not] at h2
  simp only [decide_eq_true_eq]
  exact h2

/-- A pair that is not present is untouched by the deleting filter. -/
theorem filter_of_absent (rows : List UserRecipePair) (uid rid : Nat)
    (h : hasPair rows uid rid = false) :
    rows.filter (fun p => !(decide (p.userId = uid ∧ p.recipeId = rid))) = rows := by
  rw [List.filter_eq_self]
  intro p hp
  rw [hasPair, List.any_eq_false] at h
  have h2 := h p hp
  simp only [decide_eq_true_eq] at h2
  simp only [Bool.not_eq_true', decide_eq_false_iff_not]
  exact h2

/-- `create_ingredients` resolves one row per submitted spec. -/
theorem resolveSpecs_length (db : Db) (rid : Nat) :
    ∀ (specs : List IngredientSpec) (rows : List RecipeIngredientRow),
      resolveSpecs db rid specs = some rows → rows.length = specs.length := by
  intro specs
  induction specs with
  | nil =>
    intro rows h
    simp only [resolveSpecs, Option.some.injEq] at h
    simp [← h]
  | cons s rest ih =>
    intro rows h
    simp only [resolveSpecs] at h
    cases hf : db.ingredients.find? (fun i => decide (i.id = s.id)) with
    | none => rw [hf] at h; simp at h
    | some i =>
      rw [hf] at h
      cases hr : resolveSpecs db rid rest with
      | none => rw [hr] at h; simp at h
      | some rs =>
        rw [hr] at h
        simp only [Option.some.injEq] at h
        rw [← h]
        simp [ih rs hr]

/-! ## Claim theorems -/

/-- Claim C8, counterexample: the claim says `validate_username` rejects
every single-character input and every input with a non-alphabetic
character, yet "a" (one character) and "a1" (contains '1') both pass
unchanged. -/
theorem validate_username_claim_counterexample :
    validate_username "a" = Except.ok "a"
    ∧ "a".data.length = 1
    ∧ validate_username "a1" = Except.ok "a1"
    ∧ "a1".data.all Char.isAlpha = false := by
  decide

/-- Claim C8, amended: `validate_username` fails exactly on the literal
inputs "I" and "me", and returns every other input unchanged. -/
theorem validate_username_characterization :
    ∀ v : String,
      ((∃ e, validate_username v = Except.error e) ↔ (v = "I" ∨ v = "me"))
      ∧ (¬(v = "I" ∨ v = "me") → validate_username v = Except.ok v) := by
  intro v
  by_cases h1 : v = "I"
  · subst h1
    refine ⟨⟨fun _ => Or.inl rfl, fun _ => ?_⟩, fun hn => absurd (Or.inl rfl) hn⟩
    exact ⟨"Имя пользователя должно быть длиннее 1 символа.", by decide⟩
  · by_cases h2 : v = "me"
    · subst h2
      refine ⟨⟨fun _ => Or.inr rfl, fun _ => ?_⟩, fun hn => absurd (Or.inr rfl) hn⟩
      exact ⟨"Выберите другое имя пользователя.", by decide⟩
    · have hok : validate_username v = Except.ok v := by
        simp [validate_username, h1, h2]
      refine ⟨⟨fun ⟨e, he⟩ => ?_, fun h => absurd h (by simp [h1, h2])⟩, fun _ => hok⟩
      rw [hok] at he
      exact absurd he (by simp)

/-- Witness for the amended C8 theorem at the concrete input "Anna". -/
theorem validate_username_characterization_witness :
    ¬(("Anna" : String) = "I" ∨ ("Anna" : String) = "me")
    ∧ validate_username "Anna" = Except.ok "Anna" :=
  ⟨by decide, (validate_username_characterization "Anna").2 (by decide)⟩

/-- Claim C10: the profanity rejection of `validate_names` is unreachable
(the guard compares a lowercased string with the mixed-case "Shit"), while
the reserved-word branch and the alphabetic branch stay reachable. -/
theorem validate_names_profanity_unreachable :
    (∀ v : String, isProfanityReject (validate_names v) = false)
    ∧ validate_names "Me" = Except.error "Напишите своё реальное имя."
    ∧ validate_names "ab1" = Except.error "Имя пользователя должно состоять только из букв." := by
  refine ⟨?_, by decide, by decide⟩
  intro v
  have hns : ¬ strLower v = "Shit" := strLower_ne_Shit v
  by_cases h1 : strLower v = "me"
  · rw [validate_names, if_pos h1]; decide
  · rw [validate_names, if_neg h1, if_neg hns]
    cases h3 : pyIsAlpha v
    · simp [h3, isProfanityReject]
    · simp [h3, isProfanityReject]

/-- Claim C4: duplicate adds.  A second `favorite` POST for the same
(user, recipe) answers 400 as documented, but a second `shopping_cart`
POST answers 200 — a silent success that contradicts the view's own
docstring ("400 BAD REQUEST, если ... рецепт уже находится в избранном
или списке покупок"); in both tables exactly one row remains. -/
theorem cart_duplicate_add_is_silent_success :
    (shopping_cart_post ((shopping_cart_post emptyDb 1 1).1) 1 1).2 = 200
    ∧ ((shopping_cart_post ((shopping_cart_post emptyDb 1 1).1) 1 1).1).carts.length = 1
    ∧ (favorite_post ((favorite_post emptyDb 1 1).1) 1 1).2 = 400
    ∧ ((favorite_post ((favorite_post emptyDb 1 1).1) 1 1).1).favorites.length = 1 := by
  decide

/-- Claim C5, counterexample: removing an absent favorite or cart row does
not fail — both endpoints answer 204 (a success status, below the 4xx
error range) and leave the store unchanged. -/
theorem removal_of_absent_row_is_silent :
    (favorite_delete emptyDb 1 1).2 = 204
    ∧ (favorite_delete emptyDb 1 1).1 = emptyDb
    ∧ (shopping_cart_delete emptyDb 1 1).2 = 204
    ∧ (shopping_cart_delete emptyDb 1 1).1 = emptyDb
    ∧ ¬(400 ≤ 204) := by
  decide

/-- Claim C5, amended: the wired endpoints silently answer 204 on removal
of an absent row (so repeated removes keep answering 204) and do delete a
present row (favorite answers 200, cart 204); only the unused helper
`delete_model_instance` reports a 400 error for an absent row. -/
theorem removal_semantics :
    ∀ (db : Db) (uid rid : Nat),
      (hasPair db.favorites uid rid = false → favorite_delete db uid rid = (db, 204))
      ∧ (hasPair db.favorites uid rid = true →
          (favorite_delete db uid rid).2 = 200
          ∧ hasPair (favorite_delete db uid rid).1.favorites uid rid = false)
      ∧ ((shopping_cart_delete db uid rid).2 = 204
          ∧ hasPair (shopping_cart_delete db uid rid).1.carts uid rid = false
          ∧ (hasPair db.carts uid rid = false → shopping_cart_delete db uid rid = (db, 204)))
      ∧ (hasPair db.favorites uid rid = false →
          (delete_model_instance db.favorites uid rid).2 = 400
          ∧ (delete_model_instance db.favorites uid rid).1 = db.favorites) := by
  intro db uid rid
  refine ⟨?_, ?_, ⟨rfl, ?_, ?_⟩, ?_⟩
  · intro h
    simp [favorite_delete, h]
  · intro h
    constructor
    · simp [favorite_delete, h]
    · simp only [favorite_delete, h, if_true]
      exact hasPair_filter_self db.favorites uid rid
  · exact hasPair_filter_self db.carts uid rid
  · intro h
    have hf := filter_of_absent db.carts uid rid h
    rw [shopping_cart_delete, hf]
  · intro h
    simp [delete_model_instance, h]

/-- Witness for the amended C5 theorem: concrete store holding the single
favorite (1, 1) and nothing else. -/
theorem removal_semantics_witness :
    (hasPair (Db.favorites ⟨[], [], [], [], [⟨1, 1⟩], [], []⟩) 1 1 = true)
    ∧ ((favorite_delete ⟨[], [], [], [], [⟨1, 1⟩], [], []⟩ 1 1).2 = 200
        ∧ hasPair (favorite_delete ⟨[], [], [], [], [⟨1, 1⟩], [], []⟩ 1 1).1.favorites 1 1
            = false) :=
  ⟨by decide, (removal_semantics ⟨[], [], [], [], [⟨1, 1⟩], [], []⟩ 1 1).2.1 (by decide)⟩

/-- Claim C6: subscribing to yourself always fails with the 400 rejection,
the serializer validator rejects the same case, and no mutation through
`subscribe_post` can introduce a self-subscription row. -/
theorem subscribe_self_rejected :
    (∀ (db : Db) (x : Nat), subscribe_post db x x = (db, 400))
    ∧ (∀ x : Nat, subscribe_validate x x = Except.error "Нельзя подписаться на самого себя!")
    ∧ (∀ (db : Db) (u a : Nat),
        (∀ s ∈ db.subscriptions, s.userId ≠ s.authorId) →
        ∀ s ∈ (subscribe_post db u a).1.subscriptions, s.userId ≠ s.authorId) := by
  refine ⟨?_, ?_, ?_⟩
  · intro db x
    simp [subscribe_post]
  · intro x
    simp [subscribe_validate]
  · intro db u a h s hs
    by_cases hau : a ≠ u
    · rw [subscribe_post, if_pos hau] at hs
      by_cases hex : db.subscriptions.any (fun s => decide (s.userId = u ∧ s.authorId = a)) = true
      · rw [if_pos hex] at hs
        exact h s hs
      · rw [if_neg hex] at hs
        simp only [List.mem_append, List.mem_singleton] at hs
        rcases hs with hs | hs
        · exact h s hs
        · subst hs
          simpa using Ne.symm hau
    · rw [subscribe_post, if_neg hau] at hs
      exact h s hs

/-- Witness for the C6 theorem: the rejection and the invariant at a
concrete store and users. -/
theorem subscribe_self_rejected_witness :
    (subscribe_post emptyDb 3 3 = (emptyDb, 400))
    ∧ (subscribe_validate 3 3 = Except.error "Нельзя подписаться на самого себя!")
    ∧ (∀ s ∈ (subscribe_post emptyDb 1 2).1.subscriptions, s.userId ≠ s.authorId) :=
  ⟨subscribe_self_rejected.1 emptyDb 3,
   subscribe_self_rejected.2.1 3,
   subscribe_self_rejected.2.2 emptyDb 1 2 (by decide)⟩

/-- Claim C2: with the transactional wrapper, a failure injected after the
tag associations are written and before the ingredient rows leaves the
store exactly as it was.  Both halves hold for every store: a failed
create leaves the whole store unchanged (and, when the new id was fresh,
the recipe row is absent again); a failed update of any store — in
particular one whose recipe table does contain the targeted recipe —
leaves the store, its recipe rows, and its `RecipeIngredient` rows
unchanged. -/
theorem recipe_mutations_atomic :
    ∀ (db : Db) (inp : RecipeInput),
      ((recipe_create db inp true).1 = db
        ∧ (recipe_create db inp true).1.recipeIngredients = db.recipeIngredients
        ∧ (inp.rid ∉ db.recipes.map (fun r => r.id) →
            inp.rid ∉ ((recipe_create db inp true).1.recipes.map (fun r => r.id))))
      ∧ ((recipe_update db inp true).1 = db
        ∧ (recipe_update db inp true).1.recipes = db.recipes
        ∧ (recipe_update db inp true).1.recipeIngredients = db.recipeIngredients) := by
  intro db inp
  have hc : recipe_create db inp true = (db, false) := rfl
  have hu : recipe_update db inp true = (db, false) := rfl
  exact ⟨⟨by rw [hc], by rw [hc], fun h => by rw [hc]; exact h⟩,
         by rw [hu], by rw [hu], by rw [hu]⟩

/-- Witness for the C2 theorem: a failed update of a store that holds
recipe 5 (a genuine update target, with a tag and an ingredient row)
leaves it untouched, and a failed create on the empty store leaves it
empty with the fresh id still absent. -/
theorem recipe_mutations_atomic_witness :
    ((recipe_update ⟨[⟨1, "X", "g"⟩], [⟨5, 1, "old", "t", 7⟩], [⟨5, 1, 3⟩], [⟨5, 2⟩], [], [], []⟩
        ⟨5, 1, "x", "y", 10, [1], [⟨1, 2⟩]⟩ true).1
      = ⟨[⟨1, "X", "g"⟩], [⟨5, 1, "old", "t", 7⟩], [⟨5, 1, 3⟩], [⟨5, 2⟩], [], [], []⟩)
    ∧ ((5 : Nat) ∉ emptyDb.recipes.map (fun r => r.id))
    ∧ (recipe_create emptyDb ⟨5, 1, "x", "y", 10, [1], [⟨1, 2⟩]⟩ true).1 = emptyDb
    ∧ ((5 : Nat) ∉ ((recipe_create emptyDb ⟨5, 1, "x", "y", 10, [1], [⟨1, 2⟩]⟩ true).1.recipes.map
        (fun r => r.id))) :=
  ⟨(recipe_mutations_atomic
      ⟨[⟨1, "X", "g"⟩], [⟨5, 1, "old", "t", 7⟩], [⟨5, 1, 3⟩], [⟨5, 2⟩], [], [], []⟩
      ⟨5, 1, "x", "y", 10, [1], [⟨1, 2⟩]⟩).2.1,
   by decide,
   (recipe_mutations_atomic emptyDb ⟨5, 1, "x", "y", 10, [1], [⟨1, 2⟩]⟩).1.1,
   (recipe_mutations_atomic emptyDb ⟨5, 1, "x", "y", 10, [1], [⟨1, 2⟩]⟩).1.2.2 (by decide)⟩

/-- Claim C3, counterexample: a spec list with a duplicate ingredient id
can fail with the amount error instead of the duplicate error, because the
amount check raises before the duplicate check is reached. -/
theorem duplicate_can_fail_with_amount_error :
    recipe_serializer_validate [⟨1, 0⟩, ⟨1, 5⟩]
      = Except.error "Количество не может быть меньше 1"
    ∧ ¬(([(⟨1, 0⟩ : IngredientSpec), ⟨1, 5⟩].map (fun s => s.id)).Nodup)
    ∧ ("Количество не может быть меньше 1" : String)
        ≠ "Вы пытаетесь добавить в рецепт два одинаковых ингредиента" := by
  refine ⟨by decide, by decide, by decide⟩

/-- Claim C3, amended: when every amount is positive, a duplicate
ingredient id makes validation fail with the duplicate error; and every
successful `create_ingredients` call writes exactly one row per submitted
spec, which (after validation passed) is also the number of distinct ids. -/
theorem recipe_create_ingredient_counts :
    (∀ specs : List IngredientSpec,
        (∀ s ∈ specs, 0 < s.amount) →
        ¬(specs.map (fun s => s.id)).Nodup →
        recipe_serializer_validate specs
          = Except.error "Вы пытаетесь добавить в рецепт два одинаковых ингредиента")
    ∧ (∀ (db : Db) (rid : Nat) (specs : List IngredientSpec) (db2 : Db),
        recipe_serializer_validate specs = Except.ok specs →
        create_ingredients db specs rid = some db2 →
        db2.recipeIngredients.length = db.recipeIngredients.length + specs.length
        ∧ (specs.map (fun s => s.id)).dedup.length = specs.length) := by
  constructor
  · intro specs hpos hdup
    have hany : specs.any (fun s => decide (s.amount ≤ 0)) = false := by
      rw [List.any_eq_false]
      intro s hs
      simpa using not_le.mpr (hpos s hs)
    have hlen : ((specs.map (fun s => s.id)).dedup).length
        ≠ (specs.map (fun s => s.id)).length := by
      intro heq
      apply hdup
      have hde : (specs.map (fun s => s.id)).dedup = specs.map (fun s => s.id) :=
        (List.dedup_sublist _).eq_of_length heq
      rw [← hde]
      exact List.nodup_dedup _
    rw [recipe_serializer_validate, if_neg (by simp [hany]), if_pos hlen]
  · intro db rid specs db2 hval hcreate
    constructor
    · rw [create_ingredients] at hcreate
      cases hres : resolveSpecs db rid specs with
      | none => rw [hres] at hcreate; exact absurd hcreate (by simp)
      | some rows =>
        rw [hres] at hcreate
        simp only [Option.some.injEq] at hcreate
        rw [← hcreate]
        simp [resolveSpecs_length db rid specs rows hres]
    · rw [recipe_serializer_validate] at hval
      split_ifs at hval with h1 h2
      have h3 := not_ne_iff.mp h2
      simpa [List.length_map] using h3

/-- Witness for the amended C3 theorem: the duplicate list [(1,2),(1,3)]
fails with the duplicate error, and creating [(1,2),(2,3)] against a store
that knows ingredients 1 and 2 writes exactly two rows. -/
theorem recipe_create_ingredient_counts_witness :
    (recipe_serializer_validate [⟨1, 2⟩, ⟨1, 3⟩]
      = Except.error "Вы пытаетесь добавить в рецепт два одинаковых ингредиента")
    ∧ ((Db.recipeIngredients ⟨[⟨1, "X", "g"⟩, ⟨2, "Y", "g"⟩], [], [⟨9, 1, 2⟩, ⟨9, 2, 3⟩], [], [], [], []⟩).length
        = (Db.recipeIngredients ⟨[⟨1, "X", "g"⟩, ⟨2, "Y", "g"⟩], [], [], [], [], [], []⟩).length
          + ([(⟨1, 2⟩ : IngredientSpec), ⟨2, 3⟩]).length
        ∧ (([(⟨1, 2⟩ : IngredientSpec), ⟨2, 3⟩]).map (fun s => s.id)).dedup.length
            = ([(⟨1, 2⟩ : IngredientSpec), ⟨2, 3⟩]).length) :=
  ⟨recipe_create_ingredient_counts.1 [⟨1, 2⟩, ⟨1, 3⟩] (by decide) (by decide),
   recipe_create_ingredient_counts.2
     ⟨[⟨1, "X", "g"⟩, ⟨2, "Y", "g"⟩], [], [], [], [], [], []⟩ 9
     [⟨1, 2⟩, ⟨2, 3⟩]
     ⟨[⟨1, "X", "g"⟩, ⟨2, "Y", "g"⟩], [], [⟨9, 1, 2⟩, ⟨9, 2, 3⟩], [], [], [], []⟩
     (by decide) (by decide)⟩

/-! ## Order lemmas for the output sort -/

/-- Codepoint lexicographic order is total. -/
theorem lexLe_total : ∀ (as bs : List Char), lexLe as bs = true ∨ lexLe bs as = true := by
  intro as
  induction as with
  | nil => intro bs; exact Or.inl rfl
  | cons a as ih =>
    intro bs
    cases bs with
    | nil => exact Or.inr rfl
    | cons b bs =>
      by_cases hab : a = b
      · subst hab
        rcases ih bs with h | h
        · exact Or.inl (by simp [lexLe, h])
        · exact Or.inr (by simp [lexLe, h])
      · rcases lt_or_gt_of_ne hab with h | h
        · exact Or.inl (by simp [lexLe, hab, h])
        · exact Or.inr (by simp [lexLe, Ne.symm hab, h])

/-- Codepoint lexicographic order is transitive. -/
theorem lexLe_trans : ∀ (as bs cs : List Char),
    lexLe as bs = true → lexLe bs cs = true → lexLe as cs = true := by
  intro as
  induction as with
  | nil => intro bs cs h1 h2; rfl
  | cons a as ih =>
    intro bs cs h1 h2
    cases bs with
    | nil => simp [lexLe] at h1
    | cons b bs =>
      cases cs with
      | nil => simp [lexLe] at h2
      | cons c cs =>
        simp only [lexLe] at h1 h2 ⊢
        by_cases hab : a = b
        · subst hab
          rw [if_pos rfl] at h1
          by_cases hac : a = c
          · subst hac
            rw [if_pos rfl] at h2 ⊢
            exact ih bs cs h1 h2
          · rw [if_neg hac] at h2 ⊢
            exact h2
        · rw [if_neg hab] at h1
          have hlt1 : a < b := of_decide_eq_true h1
          by_cases hbc : b = c
          · subst hbc
            rw [if_neg hab]
            exact h1
          · rw [if_neg hbc] at h2
            have hlt2 : b < c := of_decide_eq_true h2
            have hac : a < c := lt_trans hlt1 hlt2
            rw [if_neg (ne_of_lt hac)]
            exact decide_eq_true hac

instance : IsTotal ShoppingLine lineLe :=
  ⟨fun a b => lexLe_total a.1.data b.1.data⟩

instance : IsTrans ShoppingLine lineLe :=
  ⟨fun a b c h1 h2 => lexLe_trans a.1.data b.1.data c.1.data h1 h2⟩

/-! ## Sum bookkeeping lemmas -/

theorem sumFor_nil (k : ShoppingKey) : sumFor [] k = 0 := rfl

theorem sumFor_cons (r : ShoppingLine) (rows : List ShoppingLine) (k : ShoppingKey) :
    sumFor (r :: rows) k = (if shoppingKey r = k then r.2.2 else 0) + sumFor rows k := by
  by_cases h : shoppingKey r = k
  · simp [sumFor, List.filter_cons, h]
  · simp [sumFor, List.filter_cons, h]

theorem sumFor_append (l1 l2 : List ShoppingLine) (k : ShoppingKey) :
    sumFor (l1 ++ l2) k = sumFor l1 k + sumFor l2 k := by
  simp [sumFor, List.filter_append]

theorem sumFor_flatMap {α : Type} (f : α → List ShoppingLine) (l : List α) (k : ShoppingKey) :
    sumFor (l.flatMap f) k = (l.map (fun a => sumFor (f a) k)).sum := by
  induction l with
  | nil => rfl
  | cons a t ih => simp [List.flatMap_cons, sumFor_append, ih]

theorem sum_map_zero {α : Type} (l : List α) : (l.map (fun _ => (0 : Int))).sum = 0 := by
  induction l with
  | nil => rfl
  | cons a t ih => simp [ih]

theorem sum_map_add {α : Type} (l : List α) (f g : α → Int) :
    (l.map (fun x => f x + g x)).sum = (l.map f).sum + (l.map g).sum := by
  induction l with
  | nil => rfl
  | cons a t ih =>
    simp only [List.map_cons, List.sum_cons, ih]
    ring

theorem sum_filter_map {α : Type} (l : List α) (p : α → Prop) [DecidablePred p] (f : α → Int) :
    ((l.filter (fun x => decide (p x))).map f).sum
      = (l.map (fun x => if p x then f x else 0)).sum := by
  induction l with
  | nil => rfl
  | cons a t ih =>
    by_cases h : p a
    · simp [List.filter_cons, h, ih]
    · simp [List.filter_cons, h, ih]

theorem sum_map_ite_const {α : Type} (l : List α) (c : Prop) [Decidable c] (f : α → Int) :
    (l.map (fun x => if c then f x else 0)).sum = if c then (l.map f).sum else 0 := by
  by_cases h : c
  · simp [h]
  · simp [h, sum_map_zero]

theorem sum_swap {α β : Type} (l1 : List α) (l2 : List β) (f : α → β → Int) :
    (l1.map (fun a => (l2.map (fun b => f a b)).sum)).sum
      = (l2.map (fun b => (l1.map (fun a => f a b)).sum)).sum := by
  induction l1 with
  | nil =>
    simp only [List.map_nil, List.sum_nil]
    exact (sum_map_zero l2).symm
  | cons a t ih =>
    simp only [List.map_cons, List.sum_cons, ih, ← sum_map_add]

theorem ite_ite_and {p q : Prop} [Decidable p] [Decidable q] (x : Int) :
    (if p then (if q then x else 0) else 0) = if p ∧ q then x else 0 := by
  by_cases hp : p <;> by_cases hq : q <;> simp [hp, hq]

/-- In a duplicate-free list, a predicate that pins down a single value
filters to exactly that one element (when one match exists). -/
theorem filter_nodup_all_eq {α : Type} {l : List α} {p : α → Bool} {v : α}
    (hn : l.Nodup) (hv : ∀ x, p x = true → x = v) (hm : ∃ x ∈ l, p x = true) :
    l.filter p = [v] := by
  cases hf : l.filter p with
  | nil =>
    obtain ⟨x, hx, hpx⟩ := hm
    have hmem : x ∈ l.filter p := List.mem_filter.mpr ⟨hx, hpx⟩
    rw [hf] at hmem
    simp at hmem
  | cons a t =>
    have ha : a ∈ l.filter p := by rw [hf]; exact List.mem_cons_self a t
    have hav : a = v := hv a (List.mem_filter.mp ha).2
    cases t with
    | nil => rw [hav]
    | cons b t2 =>
      have hb : b ∈ l.filter p := by
        rw [hf]; exact List.mem_cons_of_mem a (List.mem_cons_self b t2)
      have hbv : b = v := hv b (List.mem_filter.mp hb).2
      have hnod : (l.filter p).Nodup := hn.filter p
      rw [hf] at hnod
      have hnotmem : a ∉ b :: t2 := (List.nodup_cons.mp hnod).1
      exfalso
      apply hnotmem
      rw [hav.trans hbv.symm]
      exact List.mem_cons_self b t2

/-- With the cart table duplicate-free (its unique constraint), the join to
the cart contributes each `(user, recipe)` pair at most once. -/
theorem cart_filter_eq (db : Db) (uid rid : Nat) (hc : db.carts.Nodup) :
    db.carts.filter (fun c => decide (c.userId = uid ∧ c.recipeId = rid))
      = if inCart db uid rid = true then [⟨uid, rid⟩] else [] := by
  by_cases h : inCart db uid rid = true
  · rw [if_pos h]
    apply filter_nodup_all_eq hc
    · intro x hx
      obtain ⟨h1, h2⟩ := of_decide_eq_true hx
      cases x with
      | mk u r => cases h1; cases h2; rfl
    · rw [inCart, List.any_eq_true] at h
      exact h
  · rw [if_neg h]
    rw [List.filter_eq_nil_iff]
    intro c hcmem hdec
    apply h
    rw [inCart, List.any_eq_true]
    exact ⟨c, hcmem, hdec⟩

/-! ## Resolution of ingredient ids to keys -/

/-- With duplicate-free primary keys, `find?` by id returns the member row. -/
theorem find?_id_eq (l : List IngredientRow) (hn : (l.map (fun i => i.id)).Nodup)
    (i : IngredientRow) (hi : i ∈ l) :
    l.find? (fun x => decide (x.id = i.id)) = some i := by
  induction l with
  | nil => simp at hi
  | cons a t ih =>
    rw [List.map_cons, List.nodup_cons] at hn
    rcases List.mem_cons.mp hi with h | h
    · subst h
      exact List.find?_cons_of_pos t (by simp)
    · by_cases ha : a.id = i.id
      · exact absurd (List.mem_map.mpr ⟨i, h, ha.symm⟩) hn.1
      · rw [List.find?_cons_of_neg t (by simpa using ha)]
        exact ih hn.2 h

/-- Summing an indicator that pins the id and the key counts exactly the
`find?`-resolved row, when ids are duplicate-free. -/
theorem resolve_sum (l : List IngredientRow) (iid : Nat) (k : ShoppingKey) (c : Int)
    (hn : (l.map (fun i => i.id)).Nodup) :
    (l.map (fun i => if ((i.name, i.measureUnit) = k ∧ i.id = iid) then c else 0)).sum
      = if resolveKeyL l iid = some k then c else 0 := by
  induction l with
  | nil => simp [resolveKeyL]
  | cons a t ih =>
    rw [List.map_cons, List.nodup_cons] at hn
    simp only [List.map_cons, List.sum_cons]
    by_cases ha : a.id = iid
    · have hres : resolveKeyL (a :: t) iid = some (a.name, a.measureUnit) := by
        rw [resolveKeyL, List.find?_cons_of_pos t (by simpa using ha)]
        rfl
      have htail : t.map (fun i => if ((i.name, i.measureUnit) = k ∧ i.id = iid) then c else 0)
          = t.map (fun _ => (0 : Int)) := by
        apply List.map_congr_left
        intro i hi2
        have hne : i.id ≠ iid := by
          intro hcontra
          exact hn.1 (List.mem_map.mpr ⟨i, hi2, hcontra.trans ha.symm⟩)
        simp [hne]
      rw [htail, sum_map_zero, hres]
      by_cases hk : (a.name, a.measureUnit) = k
      · simp [hk, ha]
      · simp [hk, ha]
    · have hres : resolveKeyL (a :: t) iid = resolveKeyL t iid := by
        rw [resolveKeyL, List.find?_cons_of_neg t (by simpa using ha), resolveKeyL]
      rw [hres]
      simp only [ha, and_false, if_false, zero_add]
      exact ih hn.2

/-! ## The grouped sum equals the per-row contributions -/

/-- Per-ingredient slice of the join: the rows produced through one
`Ingredient` row sum to its contribution when the keys match. -/
theorem sumFor_ingredient (db : Db) (uid : Nat) (i : IngredientRow) (k : ShoppingKey)
    (hc : db.carts.Nodup) :
    sumFor ((db.recipeIngredients.filter (fun ri => decide (ri.ingredientId = i.id))).flatMap
        (fun ri =>
          (db.carts.filter (fun c => decide (c.userId = uid ∧ c.recipeId = ri.recipeId))).map
            (fun _ => (i.name, i.measureUnit, ri.amount)))) k
      = if (i.name, i.measureUnit) = k then contribOf db uid i else 0 := by
  rw [sumFor_flatMap]
  have hterm : ∀ ri ∈ db.recipeIngredients.filter (fun ri => decide (ri.ingredientId = i.id)),
      sumFor ((db.carts.filter (fun c => decide (c.userId = uid ∧ c.recipeId = ri.recipeId))).map
          (fun _ => (i.name, i.measureUnit, ri.amount))) k
        = (if (i.name, i.measureUnit) = k then
            (if inCart db uid ri.recipeId = true then ri.amount else 0) else 0) := by
    intro ri _
    rw [cart_filter_eq db uid ri.recipeId hc]
    by_cases hin : inCart db uid ri.recipeId = true
    · rw [if_pos hin]
      simp only [List.map_cons, List.map_nil]
      rw [sumFor_cons, sumFor_nil, add_zero, if_pos hin]
      rfl
    · rw [if_neg hin, if_neg hin]
      simp only [List.map_nil, sumFor_nil, ite_self]
  rw [List.map_congr_left hterm, sum_map_ite_const]
  by_cases hk : (i.name, i.measureUnit) = k
  · rw [if_pos hk, if_pos hk, contribOf]
    rw [sum_filter_map db.recipeIngredients
      (fun ri => ri.ingredientId = i.id ∧ inCart db uid ri.recipeId = true) (fun ri => ri.amount)]
    rw [sum_filter_map db.recipeIngredients
      (fun ri => ri.ingredientId = i.id) (fun ri => if inCart db uid ri.recipeId = true then ri.amount else 0)]
    apply congrArg List.sum
    apply List.map_congr_left
    intro ri _
    exact ite_ite_and ri.amount
  · rw [if_neg hk, if_neg hk]

/-- The heart of claim C1: the summed amount of group `k` equals the total
amount of the `RecipeIngredient` rows contributing to `k`, assuming the
unique constraints of the cart and ingredient tables. -/
theorem sumFor_joinRows (db : Db) (uid : Nat) (k : ShoppingKey)
    (hc : db.carts.Nodup) (hi : (db.ingredients.map (fun i => i.id)).Nodup) :
    sumFor (joinRows db uid) k = contributingSum db uid k := by
  rw [joinRows, sumFor_flatMap,
    List.map_congr_left (fun i _ => sumFor_ingredient db uid i k hc)]
  have hcontrib : ∀ i ∈ db.ingredients,
      (if (i.name, i.measureUnit) = k then contribOf db uid i else 0)
        = (db.recipeIngredients.map (fun ri =>
            if ((i.name, i.measureUnit) = k
                ∧ (ri.ingredientId = i.id ∧ inCart db uid ri.recipeId = true))
            then ri.amount else 0)).sum := by
    intro i _
    rw [contribOf, sum_filter_map, ← sum_map_ite_const]
    apply congrArg List.sum
    apply List.map_congr_left
    intro ri _
    exact ite_ite_and ri.amount
  rw [List.map_congr_left hcontrib, sum_swap, contributingSum, contributing, sum_filter_map]
  apply congrArg List.sum
  apply List.map_congr_left
  intro ri _
  by_cases hin : inCart db uid ri.recipeId = true
  · have hsimp : ∀ i ∈ db.ingredients,
        (if ((i.name, i.measureUnit) = k
            ∧ (ri.ingredientId = i.id ∧ inCart db uid ri.recipeId = true))
         then ri.amount else 0)
          = (if ((i.name, i.measureUnit) = k ∧ i.id = ri.ingredientId) then ri.amount else 0) := by
      intro i _
      by_cases h1 : (i.name, i.measureUnit) = k
      · by_cases h2 : ri.ingredientId = i.id
        · rw [if_pos ⟨h1, h2, hin⟩, if_pos ⟨h1, h2.symm⟩]
        · rw [if_neg (fun hcon => h2 hcon.2.1), if_neg (fun hcon => h2 hcon.2.symm)]
      · rw [if_neg (fun hcon => h1 hcon.1), if_neg (fun hcon => h1 hcon.1)]
    rw [List.map_congr_left hsimp, resolve_sum db.ingredients ri.ingredientId k ri.amount hi]
    simp [hin]
  · have hz : ∀ i ∈ db.ingredients,
        (if ((i.name, i.measureUnit) = k
            ∧ (ri.ingredientId = i.id ∧ inCart db uid ri.recipeId = true))
         then ri.amount else 0) = (0 : Int) := by
      intro i _
      simp [hin]
    rw [List.map_congr_left hz, sum_map_zero]
    simp [hin]

/-! ## Membership of keys in the output -/

/-- A key appears among the join rows exactly when some cart recipe has an
ingredient row resolving to that key. -/
theorem mem_joinRows_keys (db : Db) (uid : Nat) (k : ShoppingKey)
    (hi : (db.ingredients.map (fun i => i.id)).Nodup) :
    k ∈ (joinRows db uid).map shoppingKey
      ↔ ∃ ri ∈ db.recipeIngredients, inCart db uid ri.recipeId = true
          ∧ resolveKeyL db.ingredients ri.ingredientId = some k := by
  constructor
  · intro hk
    obtain ⟨row, hrow, hkey⟩ := List.mem_map.mp hk
    rw [joinRows] at hrow
    obtain ⟨i, hi2, hrow2⟩ := List.mem_flatMap.mp hrow
    obtain ⟨ri, hri, hrow3⟩ := List.mem_flatMap.mp hrow2
    obtain ⟨c, hc2, hrow4⟩ := List.mem_map.mp hrow3
    have hri2 := List.mem_filter.mp hri
    have hc3 := List.mem_filter.mp hc2
    have hiid : ri.ingredientId = i.id := of_decide_eq_true hri2.2
    refine ⟨ri, hri2.1, ?_, ?_⟩
    · rw [inCart, List.any_eq_true]
      exact ⟨c, hc3.1, hc3.2⟩
    · rw [resolveKeyL, hiid, find?_id_eq db.ingredients hi i hi2]
      rw [← hrow4] at hkey
      simpa [shoppingKey] using hkey
  · rintro ⟨ri, hri, hin, hres⟩
    rw [resolveKeyL] at hres
    obtain ⟨i, hfind, hmapk⟩ := Option.map_eq_some'.mp hres
    have hmem := List.mem_of_find?_eq_some hfind
    have hid : i.id = ri.ingredientId :=
      of_decide_eq_true
        (List.find?_some (p := fun x : IngredientRow => decide (x.id = ri.ingredientId)) hfind)
    rw [inCart, List.any_eq_true] at hin
    obtain ⟨c, hcmem, hcpred⟩ := hin
    apply List.mem_map.mpr
    refine ⟨(i.name, i.measureUnit, ri.amount), ?_, by simpa [shoppingKey] using hmapk⟩
    rw [joinRows]
    apply List.mem_flatMap.mpr
    refine ⟨i, hmem, ?_⟩
    apply List.mem_flatMap.mpr
    refine ⟨ri, List.mem_filter.mpr ⟨hri, by simpa using hid.symm⟩, ?_⟩
    apply List.mem_map.mpr
    exact ⟨c, List.mem_filter.mpr ⟨hcmem, hcpred⟩, rfl⟩

/-! ## Structure of the aggregate result -/

/-- The unsorted grouped lines (one per distinct key of the join). -/
def baseLines (db : Db) (uid : Nat) : List ShoppingLine :=
  ((joinRows db uid).map shoppingKey).dedup.map
    (fun k => (k.1, k.2, sumFor (joinRows db uid) k))

theorem aggregate_eq (db : Db) (uid : Nat) :
    aggregate db uid = List.insertionSort lineLe (baseLines db uid) := rfl

theorem baseLines_keys (db : Db) (uid : Nat) :
    (baseLines db uid).map shoppingKey = ((joinRows db uid).map shoppingKey).dedup := by
  rw [baseLines, List.map_map]
  have hcomp : (shoppingKey ∘ fun k : ShoppingKey => (k.1, k.2, sumFor (joinRows db uid) k))
      = id := funext fun k => rfl
  rw [hcomp, List.map_id]

theorem aggregate_perm (db : Db) (uid : Nat) :
    (aggregate db uid).Perm (baseLines db uid) :=
  List.perm_insertionSort lineLe (baseLines db uid)

/-- Exactly one output line per key: the key projection is duplicate-free. -/
theorem aggregate_keys_nodup (db : Db) (uid : Nat) :
    ((aggregate db uid).map shoppingKey).Nodup := by
  apply (((aggregate_perm db uid).map shoppingKey).nodup_iff).mpr
  rw [baseLines_keys]
  exact List.nodup_dedup _

/-- The output keys are exactly the keys occurring among the join rows. -/
theorem mem_aggregate_keys (db : Db) (uid : Nat) (k : ShoppingKey) :
    k ∈ (aggregate db uid).map shoppingKey ↔ k ∈ (joinRows db uid).map shoppingKey := by
  rw [((aggregate_perm db uid).map shoppingKey).mem_iff, baseLines_keys, List.mem_dedup]

/-- Every output line carries the group sum of its own key. -/
theorem aggregate_lines (db : Db) (uid : Nat) (l : ShoppingLine) (hl : l ∈ aggregate db uid) :
    l = ((shoppingKey l).1, (shoppingKey l).2, sumFor (joinRows db uid) (shoppingKey l)) := by
  have hb : l ∈ baseLines db uid := (aggregate_perm db uid).mem_iff.mp hl
  rw [baseLines] at hb
  obtain ⟨k, _, hlk⟩ := List.mem_map.mp hb
  rw [← hlk]
  rfl

/-- The output is sorted by ingredient name in codepoint order. -/
theorem aggregate_sorted (db : Db) (uid : Nat) :
    (aggregate db uid).Pairwise lineLe :=
  List.sorted_insertionSort lineLe (baseLines db uid)

/-- When the key projection is duplicate-free and every line of key `k`
equals `v`, filtering by `k` returns exactly `[v]`. -/
theorem filter_keys_single {L : List ShoppingLine} {k : ShoppingKey} {v : ShoppingLine}
    (hnod : (L.map shoppingKey).Nodup)
    (hex : k ∈ L.map shoppingKey)
    (hval : ∀ l ∈ L, shoppingKey l = k → l = v) :
    L.filter (fun l => decide (shoppingKey l = k)) = [v] := by
  induction L with
  | nil => simp at hex
  | cons a t ih =>
    rw [List.map_cons, List.nodup_cons] at hnod
    by_cases ha : shoppingKey a = k
    · have hav : a = v := hval a (List.mem_cons_self a t) ha
      have ht : t.filter (fun l => decide (shoppingKey l = k)) = [] := by
        rw [List.filter_eq_nil_iff]
        intro l hl hdec
        have hlk := of_decide_eq_true hdec
        exact hnod.1 (List.mem_map.mpr ⟨l, hl, hlk.trans ha.symm⟩)
      rw [List.filter_cons, if_pos (by simpa using ha), ht, hav]
    · rw [List.filter_cons, if_neg (by simpa using ha)]
      have hex2 : k ∈ t.map shoppingKey := by
        rcases List.mem_map.mp hex with ⟨l, hl, hlk⟩
        rcases List.mem_cons.mp hl with h | h
        · exact absurd (by rw [← h]; exact hlk) ha
        · exact List.mem_map.mpr ⟨l, h, hlk⟩
      exact ih hnod.2 hex2 (fun l hl => hval l (List.mem_cons_of_mem a hl))

/-- The spec's worked example: user 7 has recipes 1 (Salt 5 g, Sugar 10 g)
and 2 (Sugar 20 g) in the cart. -/
def exampleDb : Db :=
  ⟨[⟨1, "Salt", "g"⟩, ⟨2, "Sugar", "g"⟩],
   [⟨1, 7, "R1", "t1", 10⟩, ⟨2, 7, "R2", "t2", 10⟩],
   [⟨1, 1, 5⟩, ⟨1, 2, 10⟩, ⟨2, 2, 20⟩],
   [], [], [⟨7, 1⟩, ⟨7, 2⟩], []⟩

/-- Claim C1: for a user with a non-empty cart, the download succeeds and
its ingredient lines are exactly one line per distinct `(name, unit)` key
resolved from the cart's `RecipeIngredient` rows, each carrying the sum of
the amounts of all contributing rows, sorted ascending by name; the
worked Salt/Sugar example produces exactly its two expected lines in
order.  (Hypotheses: the unique constraints of the cart and ingredient
tables.) -/
theorem download_shopping_cart_correct :
    (∀ (db : Db) (uid : Nat),
        db.carts.Nodup →
        (db.ingredients.map (fun i => i.id)).Nodup →
        db.carts.any (fun c => decide (c.userId = uid)) = true →
        (∀ firstName now, download_shopping_cart db uid firstName now
            = Except.ok (shopping_list_rows db uid firstName now))
        ∧ ((aggregate db uid).map shoppingKey).Nodup
        ∧ (∀ k : ShoppingKey, k ∈ (aggregate db uid).map shoppingKey ↔
            ∃ ri ∈ db.recipeIngredients, inCart db uid ri.recipeId = true
              ∧ resolveKeyL db.ingredients ri.ingredientId = some k)
        ∧ (∀ l ∈ aggregate db uid, l.2.2 = contributingSum db uid (shoppingKey l))
        ∧ (aggregate db uid).Pairwise lineLe)
    ∧ aggregate exampleDb 7 = [("Salt", "g", 5), ("Sugar", "g", 30)] := by
  constructor
  · intro db uid hc hi hne
    refine ⟨?_, aggregate_keys_nodup db uid, ?_, ?_, aggregate_sorted db uid⟩
    · intro firstName now
      rw [download_shopping_cart, if_neg]
      simp [hne]
    · intro k
      rw [mem_aggregate_keys]
      exact mem_joinRows_keys db uid k hi
    · intro l hl
      have h2 := aggregate_lines db uid l hl
      have h3 : l.2.2 = sumFor (joinRows db uid) (shoppingKey l) := by
        conv_lhs => rw [h2]
      rw [h3]
      exact sumFor_joinRows db uid (shoppingKey l) hc hi
  · decide

/-- Witness for the C1 theorem at the worked example store. -/
theorem download_shopping_cart_correct_witness :
    (Db.carts exampleDb).Nodup
    ∧ ((Db.ingredients exampleDb).map (fun i => i.id)).Nodup
    ∧ (Db.carts exampleDb).any (fun c => decide (c.userId = 7)) = true
    ∧ download_shopping_cart exampleDb 7 "U" "2023-06-08"
        = Except.ok (shopping_list_rows exampleDb 7 "U" "2023-06-08")
    ∧ (aggregate exampleDb 7).Pairwise lineLe :=
  ⟨by decide, by decide, by decide,
   (download_shopping_cart_correct.1 exampleDb 7 (by decide) (by decide) (by decide)).1
     "U" "2023-06-08",
   (download_shopping_cart_correct.1 exampleDb 7 (by decide) (by decide) (by decide)).2.2.2.2⟩

/-- Two distinct Ingredient rows sharing name and unit, for claim C9. -/
def twoSaltDb : Db :=
  ⟨[⟨1, "Salt", "g"⟩, ⟨2, "Salt", "g"⟩],
   [⟨1, 3, "R1", "t1", 10⟩, ⟨2, 3, "R2", "t2", 10⟩],
   [⟨1, 1, 5⟩, ⟨2, 2, 7⟩],
   [], [], [⟨3, 1⟩, ⟨3, 2⟩], []⟩

/-- Claim C9: the aggregation groups by the `(name, unit)` value pair, not
by ingredient id — when exactly two distinct ingredient rows carry key `k`
and `k` occurs in the join, the output holds a single merged line for `k`
whose amount is the sum of the contributions of both ids. -/
theorem aggregate_merges_equal_name_unit :
    ∀ (db : Db) (uid : Nat) (i1 i2 : IngredientRow) (k : ShoppingKey),
      db.carts.Nodup →
      db.ingredients.filter (fun i => decide ((i.name, i.measureUnit) = k)) = [i1, i2] →
      i1.id ≠ i2.id →
      k ∈ (joinRows db uid).map shoppingKey →
      (aggregate db uid).filter (fun l => decide (shoppingKey l = k))
        = [(k.1, k.2, contribOf db uid i1 + contribOf db uid i2)] := by
  intro db uid i1 i2 k hc hfil hne hkmem
  have hsum : sumFor (joinRows db uid) k = contribOf db uid i1 + contribOf db uid i2 := by
    rw [joinRows, sumFor_flatMap,
      List.map_congr_left (fun i _ => sumFor_ingredient db uid i k hc),
      ← sum_filter_map db.ingredients (fun i => (i.name, i.measureUnit) = k) (contribOf db uid),
      hfil]
    simp
  have hkagg : k ∈ (aggregate db uid).map shoppingKey := (mem_aggregate_keys db uid k).mpr hkmem
  have hval : ∀ l ∈ aggregate db uid, shoppingKey l = k
      → l = (k.1, k.2, contribOf db uid i1 + contribOf db uid i2) := by
    intro l hl hlk
    have h2 := aggregate_lines db uid l hl
    rw [hlk, hsum] at h2
    exact h2
  exact filter_keys_single (aggregate_keys_nodup db uid) hkagg hval

/-- Witness for the C9 theorem: ingredient ids 1 and 2 both named Salt/g,
contributing 5 and 7 through two cart recipes, merge to one line of 12. -/
theorem aggregate_merges_equal_name_unit_witness :
    (Db.carts twoSaltDb).Nodup
    ∧ (Db.ingredients twoSaltDb).filter
        (fun i => decide ((i.name, i.measureUnit) = ("Salt", "g")))
        = [⟨1, "Salt", "g"⟩, ⟨2, "Salt", "g"⟩]
    ∧ ("Salt", "g") ∈ (joinRows twoSaltDb 3).map shoppingKey
    ∧ (aggregate twoSaltDb 3).filter (fun l => decide (shoppingKey l = ("Salt", "g")))
        = [("Salt", "g", contribOf twoSaltDb 3 ⟨1, "Salt", "g"⟩
            + contribOf twoSaltDb 3 ⟨2, "Salt", "g"⟩)] :=
  ⟨by decide, by decide, by decide,
   aggregate_merges_equal_name_unit twoSaltDb 3 ⟨1, "Salt", "g"⟩ ⟨2, "Salt", "g"⟩ ("Salt", "g")
     (by decide) (by decide) (by decide) (by decide)⟩

/-- A one-recipe store with a non-empty cart for user 1, for claim C7. -/
def timeDb : Db :=
  ⟨[⟨1, "Salt", "g"⟩], [⟨1, 1, "R", "t", 5⟩], [⟨1, 1, 3⟩], [], [], [⟨1, 1⟩], []⟩

/-- Claim C7, counterexample: the rendered document embeds the `dt.now()`
timestamp, so two runs over the same unchanged cart (at different clock
readings) produce different documents. -/
theorem download_differs_across_timestamps :
    download_shopping_cart timeDb 1 "U" "2023-06-08 00:00:00"
      ≠ download_shopping_cart timeDb 1 "U" "2023-06-08 00:00:01" := by
  intro h
  have h1 : download_shopping_cart timeDb 1 "U" "2023-06-08 00:00:00"
      = Except.ok (shopping_list_rows timeDb 1 "U" "2023-06-08 00:00:00") := by
    rw [download_shopping_cart, if_neg (by decide)]
  have h2 : download_shopping_cart timeDb 1 "U" "2023-06-08 00:00:01"
      = Except.ok (shopping_list_rows timeDb 1 "U" "2023-06-08 00:00:01") := by
    rw [download_shopping_cart, if_neg (by decide)]
  rw [h1, h2] at h
  simp only [Except.ok.injEq] at h
  have h3 := congrArg (fun rows => rows.get? 1) h
  have h4 : (some ["Дата:", "", "2023-06-08 00:00:00"] : Option (List String))
      = some ["Дата:", "", "2023-06-08 00:00:01"] := h3
  exact absurd h4 (by decide)

/-- Claim C7, amended: apart from the timestamp header row (row index 1),
the document is a function of the store and user alone — two runs with no
intervening cart mutation agree on every other row, in particular on all
ingredient lines. -/
theorem download_deterministic_up_to_timestamp :
    ∀ (db : Db) (uid : Nat) (firstName t1 t2 : String),
      (download_shopping_cart db uid firstName t1).map (fun rows => rows.eraseIdx 1)
        = (download_shopping_cart db uid firstName t2).map (fun rows => rows.eraseIdx 1) := by
  intro db uid firstName t1 t2
  rw [download_shopping_cart, download_shopping_cart]
  by_cases h : db.carts.any (fun c => decide (c.userId = uid)) = false
  · rw [if_pos h, if_pos h]
  · rw [if_neg h, if_neg h]
    have herase : (shopping_list_rows db uid firstName t1).eraseIdx 1
        = (shopping_list_rows db uid firstName t2).eraseIdx 1 := by
      rw [shopping_list_rows, shopping_list_rows, docHeader, docHeader]
      simp [List.eraseIdx_cons_succ, List.eraseIdx_cons_zero]
    simp only [Except.map]
    rw [herase]
